import Mathlib

set_option maxRecDepth 1000000

/-!
Verification of the WhatsApp webhook ingestion pipeline: signature
verification (HMAC-SHA256 over the raw body), privacy hashing of sender
phone numbers (SHA-256), extraction of inbound messages from the nested
provider envelope, and idempotent insert-only persistence keyed on the
provider-assigned message id.

JavaScript values are embedded as the inductive JSVal (undefined, null,
booleans, integers, strings, arrays, objects), with JS truthiness, the
logical-or default operator, optional-chaining property access, template
string interpolation, and for-of iteration modelled explicitly.  Byte
strings are lists of Nat (each < 256); SHA-256 and HMAC-SHA256 are
implemented executably so that witnesses can evaluate concrete digests.
Date construction is kept symbolic (constructor carrying the raw
timestamp field) since no verified property inspects the instant.
-/

/-! ## SHA-256 (FIPS 180-4), executable over byte lists -/

def w32 (n : Nat) : Nat := n % 4294967296

def rotr (n x : Nat) : Nat := w32 (Nat.lor (Nat.shiftRight x n) (Nat.shiftLeft x (32 - n)))

def shr (n x : Nat) : Nat := Nat.shiftRight x n

def bsig0 (x : Nat) : Nat := Nat.xor (rotr 2 x) (Nat.xor (rotr 13 x) (rotr 22 x))

def bsig1 (x : Nat) : Nat := Nat.xor (rotr 6 x) (Nat.xor (rotr 11 x) (rotr 25 x))

def ssig0 (x : Nat) : Nat := Nat.xor (rotr 7 x) (Nat.xor (rotr 18 x) (shr 3 x))

def ssig1 (x : Nat) : Nat := Nat.xor (rotr 17 x) (Nat.xor (rotr 19 x) (shr 10 x))

def chf (x y z : Nat) : Nat := Nat.xor (Nat.land x y) (Nat.land (Nat.xor x 4294967295) z)

def maj (x y z : Nat) : Nat := Nat.xor (Nat.land x y) (Nat.xor (Nat.land x z) (Nat.land y z))

def sha256K : List Nat :=
  [1116352408, 1899447441, 3049323471, 3921009573, 961987163,
   1508970993, 2453635748, 2870763221, 3624381080, 310598401,
   607225278, 1426881987, 1925078388, 2162078206, 2614888103,
   3248222580, 3835390401, 4022224774, 264347078, 604807628,
   770255983, 1249150122, 1555081692, 1996064986, 2554220882,
   2821834349, 2952996808, 3210313671, 3336571891, 3584528711,
   113926993, 338241895, 666307205, 773529912, 1294757372,
   1396182291, 1695183700, 1986661051, 2177026350, 2456956037,
   2730485921, 2820302411, 3259730800, 3345764771, 3516065817,
   3600352804, 4094571909, 275423344, 430227734, 506948616,
   659060556, 883997877, 958139571, 1322822218, 1537002063,
   1747873779, 1955562222, 2024104815, 2227730452, 2361852424,
   2428436474, 2756734187, 3204031479, 3329325298]

def sha256H0 : List Nat :=
  [1779033703, 3144134277, 1013904242, 2773480762, 1359893119, 2600822924, 528734635, 1541459225]

def msgSchedule (block : List Nat) : List Nat :=
  (List.range 64).foldl
    (fun w t =>
      if t < 16 then w ++ [block.getD t 0]
      else w ++ [w32 (ssig1 (w.getD (t - 2) 0) + w.getD (t - 7) 0 + ssig0 (w.getD (t - 15) 0) + w.getD (t - 16) 0)])
    []

def sha256Compress (h : List Nat) (block : List Nat) : List Nat :=
  let w := msgSchedule block
  let s := (List.range 64).foldl
    (fun (st : List Nat) t =>
      match st with
      | [a, b, c, d, e, f, g, hh] =>
        let t1 := w32 (hh + bsig1 e + chf e f g + sha256K.getD t 0 + w.getD t 0)
        let t2 := w32 (bsig0 a + maj a b c)
        [w32 (t1 + t2), a, b, c, w32 (d + t1), e, f, g]
      | st => st)
    h
  List.zipWith (fun x y => w32 (x + y)) h s

def beBytes : Nat → Nat → List Nat
  | 0, _ => []
  | k + 1, n => beBytes k (n / 256) ++ [n % 256]

def bytesToWords : List Nat → List Nat
  | b0 :: b1 :: b2 :: b3 :: rest => (((b0 * 256 + b1) * 256 + b2) * 256 + b3) :: bytesToWords rest
  | _ => []

def toBlocksAux : Nat → List Nat → List (List Nat)
  | 0, _ => []
  | _, [] => []
  | fuel + 1, l => l.take 64 :: toBlocksAux fuel (l.drop 64)

def toBlocks (l : List Nat) : List (List Nat) := toBlocksAux l.length l

def sha256 (msg : List Nat) : List Nat :=
  let padded := msg ++ 0x80 :: (List.replicate ((119 - msg.length % 64) % 64) 0 ++ beBytes 8 (8 * msg.length))
  let hs := (toBlocks padded).foldl (fun h b => sha256Compress h (bytesToWords b)) sha256H0
  hs.flatMap (beBytes 4)

def hexChar (n : Nat) : Char := "0123456789abcdef".data.getD n 'x'

def bytesToHex (l : List Nat) : String :=
  String.mk (l.flatMap (fun b => [hexChar ((b / 16) % 16), hexChar (b % 16)]))

def utf8Char (c : Char) : List Nat :=
  let n := c.toNat
  if n < 0x80 then [n]
  else if n < 0x800 then [0xC0 + n / 64, 0x80 + n % 64]
  else if n < 0x10000 then [0xE0 + n / 4096, 0x80 + (n / 64) % 64, 0x80 + n % 64]
  else [0xF0 + n / 262144, 0x80 + (n / 4096) % 64, 0x80 + (n / 64) % 64, 0x80 + n % 64]

def utf8Encode (s : String) : List Nat := s.data.flatMap utf8Char

/-- HMAC-SHA256 (RFC 2104) with a 64-byte block, matching the semantics of
node's crypto.createHmac("sha256", key): keys longer than one block are
first hashed, shorter keys are zero-padded. -/
def hmacSha256 (key msg : List Nat) : List Nat :=
  let k0 := if 64 < key.length then sha256 key else key
  let k1 := k0 ++ List.replicate (64 - k0.length) 0
  sha256 ((k1.map (Nat.xor 0x5c)) ++ sha256 ((k1.map (Nat.xor 0x36)) ++ msg))

/-! ## JavaScript value model -/

mutual
/-- A JavaScript value as it can occur in a parsed webhook body or in the
arguments the route hands to the services: undefined, null, booleans,
numbers (integers; the payloads of interest carry no fractional numbers),
strings, arrays and plain objects. -/
inductive JSVal where
  | undef
  | jnull
  | jbool (b : Bool)
  | jnum (n : Int)
  | jstr (s : String)
  | jarr (elems : JSArr)
  | jobj (fields : JSObj)
deriving DecidableEq
inductive JSArr where
  | anil
  | acons (hd : JSVal) (tl : JSArr)
deriving DecidableEq
inductive JSObj where
  | onil
  | ocons (key : String) (val : JSVal) (tl : JSObj)
deriving DecidableEq
end

def JSArr.toList : JSArr → List JSVal
  | .anil => []
  | .acons h t => h :: t.toList

def JSArr.ofList : List JSVal → JSArr
  | [] => .anil
  | h :: t => .acons h (JSArr.ofList t)

def JSObj.lookupField : JSObj → String → Option JSVal
  | .onil, _ => none
  | .ocons k v t, key => if k = key then some v else t.lookupField key

/-- JS truthiness: undefined, null, false, 0 and the empty string are falsy;
objects and arrays are always truthy. -/
def truthy : JSVal → Bool
  | .undef => false
  | .jnull => false
  | .jbool b => b
  | .jnum n => decide (n ≠ 0)
  | .jstr s => decide (s ≠ "")
  | .jarr _ => true
  | .jobj _ => true

/-- The JS logical-or default idiom: a or-else b is a when a is truthy,
otherwise b. -/
def jsOr (a b : JSVal) : JSVal := if truthy a then a else b

/-- Optional-chaining property access x?.key: undefined when x is null or
undefined; a field lookup on plain objects; undefined on primitives and
arrays (none of the field names the code reads collides with a built-in
property of those). -/
def jsGet (v : JSVal) (key : String) : JSVal :=
  match v with
  | .jobj fields => (fields.lookupField key).getD .undef
  | _ => .undef

mutual
/-- JS ToString as used by template-literal interpolation. -/
def jsToString : JSVal → String
  | .undef => "undefined"
  | .jnull => "null"
  | .jbool true => "true"
  | .jbool false => "false"
  | .jnum n => toString n
  | .jstr s => s
  | .jarr a => jsArrToString a
  | .jobj _ => "[object Object]"
/-- Array.prototype.toString: elements joined by commas, with null and
undefined elements rendered empty. -/
def jsArrToString : JSArr → String
  | .anil => ""
  | .acons .undef .anil => ""
  | .acons .jnull .anil => ""
  | .acons h .anil => jsToString h
  | .acons .undef t => "," ++ jsArrToString t
  | .acons .jnull t => "," ++ jsArrToString t
  | .acons h t => jsToString h ++ "," ++ jsArrToString t
end

/-- for-of iteration over the value a level of the envelope holds after the
or-else-empty-array default: arrays yield their elements, strings yield
their characters (strings are iterable in JS), any other truthy value
(a number, a boolean, a plain object) raises a TypeError. -/
def forOf (v : JSVal) : Except String (List JSVal) :=
  match v with
  | .jarr a => .ok a.toList
  | .jstr s => .ok (s.data.map (fun c => JSVal.jstr (String.mk [c])))
  | _ => .error "is not iterable"

/-! ## src/services/privacy.js -/

/-- hashPhone from src/services/privacy.js: null for a falsy phone,
otherwise the hex SHA-256 digest of the template string interpolating
(salt or-else empty string), a colon, and the phone. -/
def hashPhone (phone salt : JSVal) : JSVal :=
  if truthy phone = false then .jnull
  else
    let s := jsOr salt (.jstr "")
    .jstr (bytesToHex (sha256 (utf8Encode (jsToString s ++ ":" ++ jsToString phone))))

/-- The digest hashPhone produces for string-typed salt and phone: hex
SHA-256 of salt, a colon separator, then the phone. -/
def phoneDigestHex (salt phone : String) : String :=
  bytesToHex (sha256 (utf8Encode (salt ++ ":" ++ phone)))

/-- Modelled from the spec wording of the Privacy Hasher contract, for the
refinement comparison only: the hex SHA-256 digest of the concatenation of
salt and phone number, with no separator between them. -/
def specConcatDigestHex (salt phone : String) : String :=
  bytesToHex (sha256 (utf8Encode (salt ++ phone)))

/-! ## src/services/metaSignature.js -/

/-- The signature value the service computes for a configured secret and a
raw body: the string sha256= followed by the hex HMAC-SHA256 of the body
under the secret. -/
def expectedSignature (appSecret : String) (rawBody : List Nat) : String :=
  "sha256=" ++ bytesToHex (hmacSha256 (utf8Encode appSecret) rawBody)

/-- verifyMetaSignature from src/services/metaSignature.js.  The secret is
None for an unset environment value and Some for a string; a falsy secret
bypasses verification.  The header is None when absent.  A missing rawBody
defaults to the empty buffer.  crypto.timingSafeEqual throws on buffers of
different byte lengths and that exception is caught and turned into false;
on equal lengths it returns buffer equality, which for UTF-8 encoded
strings coincides with string equality. -/
def verifyMetaSignature (rawBody : Option (List Nat)) (sigHeader : Option String)
    (appSecret : Option String) : Bool :=
  match appSecret with
  | none => true
  | some secret =>
    if secret = "" then true
    else
      match sigHeader with
      | none => false
      | some sig =>
        if sig = "" then false
        else
          let expected := expectedSignature secret (rawBody.getD [])
          if (utf8Encode sig).length = (utf8Encode expected).length then
            decide (sig = expected)
          else false

/-! ## src/services/whatsappParser.js -/

/-- The Date stored in the ts field, kept symbolic: either new Date of the
provider epoch-seconds value (carried verbatim) or new Date of the current
instant.  No verified property inspects the instant itself. -/
inductive JSDate where
  | ofEpochField (v : JSVal)
  | nowDate
deriving DecidableEq

/-- One flat record produced by extractInboundMessages (the object pushed
onto out). -/
structure ExtractedMessage where
  wa_message_id : JSVal
  phone_number_id : JSVal
  sender_phone : JSVal
  msg_type : JSVal
  text : JSVal
  ts : JSDate
  raw_message : JSVal
deriving DecidableEq

/-- The body of the innermost loop of extractInboundMessages: the record
built from one message object m under the channel phoneNumberId. -/
def extractOne (phoneNumberId : JSVal) (m : JSVal) : ExtractedMessage :=
  let waMessageId := jsGet m "id"
  let sender := jsOr (jsGet m "from") .jnull
  let ts := if truthy (jsGet m "timestamp") then JSDate.ofEpochField (jsGet m "timestamp")
            else JSDate.nowDate
  let type := jsOr (jsGet m "type") (.jstr "unknown")
  let text :=
    if type = .jstr "text" then jsOr (jsGet (jsGet m "text") "body") .jnull
    else if type = .jstr "button" then jsOr (jsGet (jsGet m "button") "text") .jnull
    else if type = .jstr "interactive" then jsOr (jsGet (jsGet m "interactive") "type") .jnull
    else .jnull
  { wa_message_id := waMessageId
    phone_number_id := phoneNumberId
    sender_phone := sender
    msg_type := type
    text := text
    ts := ts
    raw_message := m }

/-- The loop over one change list: per change, take value or-else empty
object, metadata or-else empty object, phone_number_id or-else null, then
iterate value.messages or-else empty array, pushing one record per
message.  A TypeError from for-of propagates, discarding the output, as
the thrown exception does in the source. -/
def extractFromChanges : List JSVal → Except String (List ExtractedMessage)
  | [] => .ok []
  | change :: rest =>
    let value := jsOr (jsGet change "value") (.jobj .onil)
    let metadata := jsOr (jsGet value "metadata") (.jobj .onil)
    let phoneNumberId := jsOr (jsGet metadata "phone_number_id") .jnull
    match forOf (jsOr (jsGet value "messages") (.jarr .anil)) with
    | .error e => .error e
    | .ok messages =>
      match extractFromChanges rest with
      | .error e => .error e
      | .ok later => .ok (messages.map (extractOne phoneNumberId) ++ later)

/-- The loop over the entry list: per entry, iterate entry.changes or-else
empty array. -/
def extractFromEntries : List JSVal → Except String (List ExtractedMessage)
  | [] => .ok []
  | entry :: rest =>
    match forOf (jsOr (jsGet entry "changes") (.jarr .anil)) with
    | .error e => .error e
    | .ok changes =>
      match extractFromChanges changes with
      | .error e => .error e
      | .ok here =>
        match extractFromEntries rest with
        | .error e => .error e
        | .ok later => .ok (here ++ later)

/-- extractInboundMessages from src/services/whatsappParser.js: iterate
webhookBody.entry or-else empty array and flatten entries, changes and
messages into one record list, in source order. -/
def extractInboundMessages (webhookBody : JSVal) : Except String (List ExtractedMessage) :=
  match forOf (jsOr (jsGet webhookBody "entry") (.jarr .anil)) with
  | .error e => .error e
  | .ok entries => extractFromEntries entries

/-! ## src/routes/webhook.js -/

/-- A response as the GET handler produces it: a status code and the body
string passed to send, if any (res.sendStatus sends its canonical status
text, which no claim inspects, so it is modelled as no body). -/
structure HttpResponse where
  status : Nat
  body : Option String
deriving DecidableEq

/-- The GET / verification handler of webhookRouter: echo the challenge
with status 200 when hub.mode is the string subscribe and hub.verify_token
strictly equals the configured verify token, otherwise send status 403.
Query parameters are None when absent. -/
def webhookGet (verifyToken : String) (mode token challenge : Option String) : HttpResponse :=
  if mode = some "subscribe" ∧ token = some verifyToken then
    { status := 200, body := challenge }
  else
    { status := 403, body := none }

/-- One bulkWrite operation of the POST handler, which doubles as the
document inserted on upsert: the filter key is its wa_message_id field and
the setOnInsert document is the whole record. -/
structure StoredMessage where
  wa_message_id : JSVal
  phone_number_id : JSVal
  sender_phone_hash : JSVal
  direction : String
  msg_type : JSVal
  text : JSVal
  ts : JSDate
  raw_message : JSVal
deriving DecidableEq

/-- The updateOne document the POST handler maps one extracted message to:
filter on wa_message_id, setOnInsert every stored field, direction always
inbound, sender phone replaced by its hash under the configured salt. -/
def buildOp (phoneHashSalt : String) (m : ExtractedMessage) : StoredMessage :=
  { wa_message_id := m.wa_message_id
    phone_number_id := m.phone_number_id
    sender_phone_hash := hashPhone m.sender_phone (.jstr phoneHashSalt)
    direction := "inbound"
    msg_type := m.msg_type
    text := m.text
    ts := m.ts
    raw_message := m.raw_message }

/-- The ops array of the POST handler: extracted messages with a falsy
wa_message_id are filtered out, the rest are mapped to upsert operations. -/
def buildOps (phoneHashSalt : String) (msgs : List ExtractedMessage) : List StoredMessage :=
  (msgs.filter (fun m => truthy m.wa_message_id)).map (buildOp phoneHashSalt)

/-- The stored record holding a given wa_message_id, if any. -/
def findByMessageId (store : List StoredMessage) (key : JSVal) : Option StoredMessage :=
  store.find? (fun r => decide (r.wa_message_id = key))

/-- Modelled from the spec: the storage collaborator (MongoDB, outside the
repository) executes each updateOne upsert with setOnInsert atomically
against the unique index on wa_message_id — a no-op when a document with
that key exists, an insert of the setOnInsert document otherwise. -/
def applyOp (store : List StoredMessage) (doc : StoredMessage) : List StoredMessage :=
  match findByMessageId store doc.wa_message_id with
  | some _ => store
  | none => store ++ [doc]

/-- Modelled from the spec: a sequence of atomic document operations
applied in order.  An unordered bulkWrite of several batches, sequential
or concurrently interleaved, executes as one such sequence because every
individual operation is atomic and no operation aborts the rest. -/
def applyOps (store : List StoredMessage) (ops : List StoredMessage) : List StoredMessage :=
  ops.foldl applyOp store

/-! ## Derived level helpers and demo values -/

/-- Whether a level value iterates without a TypeError after the
or-else-empty-array default of the source: true for falsy values, arrays
and strings, false for truthy non-iterables such as numbers, booleans and
plain objects. -/
def iterableWithDefault (v : JSVal) : Bool :=
  match forOf (jsOr v (.jarr .anil)) with
  | .ok _ => true
  | .error _ => false

/-- The elements a level value yields under for-of after the
or-else-empty-array default (empty when it would throw instead). -/
def iterElems (v : JSVal) : List JSVal :=
  match forOf (jsOr v (.jarr .anil)) with
  | .ok l => l
  | .error _ => []

/-- The message objects of one change, through the or-else defaults of the
source: change.value or-else empty object, then its messages level. -/
def changeMessages (change : JSVal) : List JSVal :=
  iterElems (jsGet (jsOr (jsGet change "value") (.jobj .onil)) "messages")

/-- Whether one change's messages level iterates without a TypeError. -/
def changeIterable (change : JSVal) : Bool :=
  iterableWithDefault (jsGet (jsOr (jsGet change "value") (.jobj .onil)) "messages")

/-- Whether every level of the envelope that the source iterates is, after
the or-else-empty-array default, iterable (an array or a string): the
entry level, each entry's changes level, and each change's messages
level. -/
def levelsIterable (body : JSVal) : Bool :=
  iterableWithDefault (jsGet body "entry")
  && (iterElems (jsGet body "entry")).all (fun entry =>
      iterableWithDefault (jsGet entry "changes")
      && (iterElems (jsGet entry "changes")).all changeIterable)

/-- The message objects of all well-formed branches of the envelope, in
their original relative order: entries, then changes, then messages. -/
def flattenedMessages (body : JSVal) : List JSVal :=
  (iterElems (jsGet body "entry")).flatMap (fun entry =>
    (iterElems (jsGet entry "changes")).flatMap changeMessages)

/-- The channel id one change contributes to its records, through the
or-else defaults of the source: change.value or-else empty object, its
metadata or-else empty object, its phone_number_id or-else null. -/
def changePhoneNumberId (change : JSVal) : JSVal :=
  jsOr (jsGet (jsOr (jsGet (jsOr (jsGet change "value") (.jobj .onil)) "metadata")
    (.jobj .onil)) "phone_number_id") .jnull

/-- A one-field JS object. -/
def obj1 (k : String) (v : JSVal) : JSVal := .jobj (.ocons k v .onil)

/-- A two-field JS object. -/
def obj2 (k1 : String) (v1 : JSVal) (k2 : String) (v2 : JSVal) : JSVal :=
  .jobj (.ocons k1 v1 (.ocons k2 v2 .onil))

/-- A one-element JS array. -/
def arr1 (v : JSVal) : JSVal := .jarr (.acons v .anil)

/-- A demo interactive message: id m2, type interactive, sub-type
button_reply. -/
def demoInteractiveMsg : JSVal :=
  .jobj (.ocons "id" (.jstr "m2")
    (.ocons "type" (.jstr "interactive")
      (.ocons "interactive" (obj1 "type" (.jstr "button_reply")) .onil)))

/-- A demo envelope carrying exactly the demo interactive message on
channel CH1. -/
def demoInteractiveBody : JSVal :=
  obj1 "entry" (arr1 (obj1 "changes" (arr1 (obj1 "value"
    (obj2 "metadata" (obj1 "phone_number_id" (.jstr "CH1"))
          "messages" (arr1 demoInteractiveMsg))))))

/-- A demo envelope mixing a malformed branch (an entry with no changes
level) with a well-formed branch carrying the demo interactive message. -/
def demoMixedBody : JSVal :=
  obj1 "entry" (.jarr (.acons (.jobj .onil)
    (.acons (obj1 "changes" (arr1 (obj1 "value"
      (obj2 "metadata" (obj1 "phone_number_id" (.jstr "CH1"))
            "messages" (arr1 demoInteractiveMsg))))) .anil)))

/-- A demo stored document with a truthy message id and simple fields. -/
def demoStored : StoredMessage :=
  { wa_message_id := .jstr "m2"
    phone_number_id := .jstr "CH1"
    sender_phone_hash := .jnull
    direction := "inbound"
    msg_type := .jstr "text"
    text := .jstr "hi"
    ts := .nowDate
    raw_message := .jobj .onil }

/-! ## Theorems -/

/-- C8: for every GET verification request, the response is status 200
with the supplied challenge echoed verbatim exactly when the mode
parameter is the string subscribe and the supplied token equals the
configured verify token; in every other case the response is status 403
with no challenge echoed. -/
theorem webhookGet_challenge_iff (verifyToken : String) (mode token challenge : Option String) :
    (webhookGet verifyToken mode token challenge = { status := 200, body := challenge } ↔
      (mode = some "subscribe" ∧ token = some verifyToken))
    ∧ (webhookGet verifyToken mode token challenge = { status := 403, body := none } ↔
      ¬(mode = some "subscribe" ∧ token = some verifyToken)) := by
  by_cases h : mode = some "subscribe" ∧ token = some verifyToken <;>
    simp [webhookGet, h]

/-- C3: with no secret configured (environment value unset, or set to the
empty string), signature verification returns true for every raw body and
every header, including an absent one. -/
theorem verifyMetaSignature_bypass (rawBody : Option (List Nat)) (sigHeader : Option String) :
    verifyMetaSignature rawBody sigHeader none = true ∧
    verifyMetaSignature rawBody sigHeader (some "") = true := by
  constructor <;> simp [verifyMetaSignature]

/-- C2: with a non-empty secret configured, verification returns false
when the signature header is absent, returns false for every header value
different from sha256= followed by the hex HMAC-SHA256 of the raw body
under the secret, and in particular returns false (rather than letting the
length-mismatch exception of timingSafeEqual propagate) for every header
whose byte length differs from the expected signature's. -/
theorem verifyMetaSignature_rejects (rawBody : Option (List Nat)) (secret : String)
    (hs : secret ≠ "") :
    verifyMetaSignature rawBody none (some secret) = false
    ∧ (∀ sig : String, sig ≠ expectedSignature secret (rawBody.getD []) →
        verifyMetaSignature rawBody (some sig) (some secret) = false)
    ∧ (∀ sig : String,
        (utf8Encode sig).length ≠ (utf8Encode (expectedSignature secret (rawBody.getD []))).length →
        verifyMetaSignature rawBody (some sig) (some secret) = false) := by
  refine ⟨by simp [verifyMetaSignature, hs], ?_, ?_⟩
  · intro sig hne
    by_cases h0 : sig = ""
    · simp [verifyMetaSignature, hs, h0]
    · simp only [verifyMetaSignature, if_neg hs, if_neg h0]
      split
      · simp [hne]
      · rfl
  · intro sig hlen
    by_cases h0 : sig = ""
    · simp [verifyMetaSignature, hs, h0]
    · simp only [verifyMetaSignature, if_neg hs, if_neg h0]
      split
      · exact absurd (by assumption) hlen
      · rfl

/-- Witness for C2 at a concrete secret, body and header. -/
theorem verifyMetaSignature_rejects_witness :
    verifyMetaSignature (some []) none (some "k") = false ∧
    verifyMetaSignature (some []) (some "x") (some "k") = false :=
  ⟨(verifyMetaSignature_rejects (some []) "k" (by decide)).1,
   (verifyMetaSignature_rejects (some []) "k" (by decide)).2.1 "x" (by decide)⟩

/-- C4 counterexample: at phone 1 and salt s the hasher does not return
the hex SHA-256 of the plain concatenation of salt and phone, because the
source interpolates a colon between them. -/
theorem hashPhone_not_plain_concat :
    hashPhone (.jstr "1") (.jstr "s") ≠ .jstr (specConcatDigestHex "s" "1") := by
  decide

/-- C4 (amended): the hasher returns null for a null, undefined or empty
phone; for every non-empty phone and every string salt it returns the hex
SHA-256 digest of salt, a colon separator, then the phone; and it is
deterministic (equal inputs give equal outputs). -/
theorem hashPhone_contract (salt : JSVal) (p : String) :
    hashPhone .jnull salt = .jnull
    ∧ hashPhone .undef salt = .jnull
    ∧ hashPhone (.jstr "") salt = .jnull
    ∧ (p ≠ "" → ∀ saltStr : String,
        hashPhone (.jstr p) (.jstr saltStr) = .jstr (phoneDigestHex saltStr p))
    ∧ hashPhone (.jstr p) salt = hashPhone (.jstr p) salt := by
  refine ⟨rfl, rfl, by simp [hashPhone, truthy], ?_, rfl⟩
  intro hp saltStr
  by_cases h0 : saltStr = "" <;>
    simp [hashPhone, phoneDigestHex, truthy, jsOr, jsToString, hp, h0]

/-- Witness for C4 at phone 1 and salt s. -/
theorem hashPhone_contract_witness :
    hashPhone (.jstr "1") (.jstr "s") = .jstr (phoneDigestHex "s" "1") :=
  (hashPhone_contract .jnull "1").2.2.2.1 (by decide) "s"

/-- C10: for every non-empty phone the hasher tolerates a null, undefined
or empty salt, treating each as the empty string: all three give the same
hex digest of the empty salt, a colon, and the phone, and the result is a
string, never null. -/
theorem hashPhone_salt_default (p : String) (hp : p ≠ "") :
    hashPhone (.jstr p) .jnull = .jstr (phoneDigestHex "" p)
    ∧ hashPhone (.jstr p) .undef = .jstr (phoneDigestHex "" p)
    ∧ hashPhone (.jstr p) (.jstr "") = .jstr (phoneDigestHex "" p)
    ∧ hashPhone (.jstr p) .jnull ≠ .jnull := by
  refine ⟨?_, ?_, ?_, ?_⟩ <;>
    simp [hashPhone, phoneDigestHex, truthy, jsOr, jsToString, hp]

/-- Witness for C10 at phone 1. -/
theorem hashPhone_salt_default_witness :
    hashPhone (.jstr "1") .jnull = .jstr (phoneDigestHex "" "1") :=
  (hashPhone_salt_default "1" (by decide)).1

/-- C9: a message object whose type field is absent, null, empty, or
otherwise falsy is extracted with the literal message type unknown, and
its text is null. -/
theorem extractOne_unknown_type (p m : JSVal) (h : truthy (jsGet m "type") = false) :
    (extractOne p m).msg_type = .jstr "unknown" ∧ (extractOne p m).text = .jnull := by
  simp [extractOne, jsOr, h]

/-- Witness for C9 at a message with no type field. -/
theorem extractOne_unknown_type_witness :
    (extractOne .jnull (.jobj .onil)).msg_type = .jstr "unknown" ∧
    (extractOne .jnull (.jobj .onil)).text = .jnull :=
  extractOne_unknown_type .jnull (.jobj .onil) (by decide)

lemma extractOne_raw (p m : JSVal) : (extractOne p m).raw_message = m := rfl

lemma mem_extractFromChanges (cs : List JSVal) (l : List ExtractedMessage)
    (h : extractFromChanges cs = .ok l) (r : ExtractedMessage) (hr : r ∈ l) :
    ∃ p, r = extractOne p r.raw_message := by
  induction cs generalizing l with
  | nil =>
    simp only [extractFromChanges, Except.ok.injEq] at h
    subst h
    simp at hr
  | cons c rest ih =>
    simp only [extractFromChanges] at h
    cases hfo : forOf (jsOr (jsGet (jsOr (jsGet c "value") (.jobj .onil)) "messages") (.jarr .anil)) with
    | error e => simp only [hfo] at h; exact Except.noConfusion h
    | ok messages =>
      simp only [hfo] at h
      cases hrest : extractFromChanges rest with
      | error e => simp only [hrest] at h; exact Except.noConfusion h
      | ok later =>
        simp only [hrest, Except.ok.injEq] at h
        subst h
        rcases List.mem_append.mp hr with hmem | hmem
        · obtain ⟨m, _, hEq⟩ := List.mem_map.mp hmem
          subst hEq
          exact ⟨_, by rw [extractOne_raw]⟩
        · exact ih later hrest hmem

lemma mem_extractFromEntries (es : List JSVal) (l : List ExtractedMessage)
    (h : extractFromEntries es = .ok l) (r : ExtractedMessage) (hr : r ∈ l) :
    ∃ p, r = extractOne p r.raw_message := by
  induction es generalizing l with
  | nil =>
    simp only [extractFromEntries, Except.ok.injEq] at h
    subst h
    simp at hr
  | cons e rest ih =>
    simp only [extractFromEntries] at h
    cases hfo : forOf (jsOr (jsGet e "changes") (.jarr .anil)) with
    | error err => simp only [hfo] at h; exact Except.noConfusion h
    | ok changes =>
      cases hch : extractFromChanges changes with
      | error err => simp only [hfo, hch] at h; exact Except.noConfusion h
      | ok here =>
        cases hrest : extractFromEntries rest with
        | error err => simp only [hfo, hch, hrest] at h; exact Except.noConfusion h
        | ok later =>
          simp only [hfo, hch, hrest, Except.ok.injEq] at h
          subst h
          rcases List.mem_append.mp hr with hmem | hmem
          · exact mem_extractFromChanges changes here hch r hmem
          · exact ih later hrest hmem

lemma mem_extractInboundMessages (body : JSVal) (l : List ExtractedMessage)
    (h : extractInboundMessages body = .ok l) (r : ExtractedMessage) (hr : r ∈ l) :
    ∃ p, r = extractOne p r.raw_message := by
  simp only [extractInboundMessages] at h
  cases hfo : forOf (jsOr (jsGet body "entry") (.jarr .anil)) with
  | error err => simp only [hfo] at h; exact Except.noConfusion h
  | ok entries =>
    rw [hfo] at h
    exact mem_extractFromEntries entries l h r hr

lemma extractOne_text_rule (p m : JSVal) :
    ((extractOne p m).msg_type = .jstr "text" →
      (extractOne p m).text = jsOr (jsGet (jsGet m "text") "body") .jnull)
    ∧ ((extractOne p m).msg_type = .jstr "button" →
      (extractOne p m).text = jsOr (jsGet (jsGet m "button") "text") .jnull)
    ∧ ((extractOne p m).msg_type = .jstr "interactive" →
      (extractOne p m).text = jsOr (jsGet (jsGet m "interactive") "type") .jnull)
    ∧ ((extractOne p m).msg_type ≠ .jstr "text" →
       (extractOne p m).msg_type ≠ .jstr "button" →
       (extractOne p m).msg_type ≠ .jstr "interactive" →
      (extractOne p m).text = .jnull) := by
  by_cases h1 : jsOr (jsGet m "type") (.jstr "unknown") = .jstr "text" <;>
  by_cases h2 : jsOr (jsGet m "type") (.jstr "unknown") = .jstr "button" <;>
  by_cases h3 : jsOr (jsGet m "type") (.jstr "unknown") = .jstr "interactive" <;>
    simp [extractOne, h1, h2, h3]

/-- C6: for every record extracted from any envelope, its text field is
derived from its message type by: type text takes the nested text body
field (or-else null), type button takes the nested button label field
(or-else null), type interactive takes the interactive sub-type name
itself (or-else null) rather than the interactive content, and any other
type leaves text null. -/
theorem extracted_text_rule (body : JSVal) (l : List ExtractedMessage)
    (h : extractInboundMessages body = .ok l) (r : ExtractedMessage) (hr : r ∈ l) :
    (r.msg_type = .jstr "text" →
      r.text = jsOr (jsGet (jsGet r.raw_message "text") "body") .jnull)
    ∧ (r.msg_type = .jstr "button" →
      r.text = jsOr (jsGet (jsGet r.raw_message "button") "text") .jnull)
    ∧ (r.msg_type = .jstr "interactive" →
      r.text = jsOr (jsGet (jsGet r.raw_message "interactive") "type") .jnull)
    ∧ (r.msg_type ≠ .jstr "text" → r.msg_type ≠ .jstr "button" →
       r.msg_type ≠ .jstr "interactive" → r.text = .jnull) := by
  obtain ⟨p, hp⟩ := mem_extractInboundMessages body l h r hr
  rw [hp]
  simp only [extractOne_raw]
  exact extractOne_text_rule p r.raw_message

/-- Witness for C6: the demo envelope's interactive message stores the
sub-type name button_reply as its text. -/
theorem extracted_text_rule_witness :
    (extractOne (.jstr "CH1") demoInteractiveMsg).text
      = jsOr (jsGet (jsGet (extractOne (.jstr "CH1") demoInteractiveMsg).raw_message
          "interactive") "type") .jnull :=
  (extracted_text_rule demoInteractiveBody [extractOne (.jstr "CH1") demoInteractiveMsg]
    (by rfl) (extractOne (.jstr "CH1") demoInteractiveMsg) (by simp)).2.2.1 (by rfl)

lemma iterable_forOf (v : JSVal) (h : iterableWithDefault v = true) :
    forOf (jsOr v (.jarr .anil)) = .ok (iterElems v) := by
  cases hf : forOf (jsOr v (.jarr .anil)) with
  | ok l => simp [iterElems, hf]
  | error e => simp [iterableWithDefault, hf] at h

lemma extractFromChanges_eq (cs : List JSVal) (h : ∀ c ∈ cs, changeIterable c = true) :
    ∃ l, extractFromChanges cs = .ok l ∧
      l.map (fun r => r.raw_message) = cs.flatMap changeMessages := by
  induction cs with
  | nil => exact ⟨[], rfl, rfl⟩
  | cons c rest ih =>
    obtain ⟨l, hl, hmap⟩ := ih (fun x hx => h x (List.mem_cons_of_mem _ hx))
    have hc : forOf (jsOr (jsGet (jsOr (jsGet c "value") (.jobj .onil)) "messages") (.jarr .anil))
        = .ok (changeMessages c) := iterable_forOf _ (h c (List.mem_cons_self _ _))
    refine ⟨(changeMessages c).map (extractOne (changePhoneNumberId c)) ++ l, ?_, ?_⟩
    · simp only [extractFromChanges, hc, hl, changePhoneNumberId]
    · simp [List.map_append, List.map_map, hmap, Function.comp_def, extractOne_raw]

lemma extractFromEntries_eq (es : List JSVal)
    (h : ∀ e ∈ es, iterableWithDefault (jsGet e "changes") = true
         ∧ ∀ c ∈ iterElems (jsGet e "changes"), changeIterable c = true) :
    ∃ l, extractFromEntries es = .ok l ∧
      l.map (fun r => r.raw_message)
        = es.flatMap (fun e => (iterElems (jsGet e "changes")).flatMap changeMessages) := by
  induction es with
  | nil => exact ⟨[], rfl, rfl⟩
  | cons e rest ih =>
    obtain ⟨hit, hcs⟩ := h e (List.mem_cons_self _ _)
    obtain ⟨l, hl, hmap⟩ := ih (fun x hx => h x (List.mem_cons_of_mem _ hx))
    obtain ⟨lc, hlc, hmapc⟩ := extractFromChanges_eq (iterElems (jsGet e "changes")) hcs
    have hfo := iterable_forOf _ hit
    refine ⟨lc ++ l, ?_, ?_⟩
    · simp only [extractFromEntries, hfo, hlc, hl]
    · simp [hmapc, hmap]

/-- C5 (amended): for every envelope whose iterated levels (entry, each
entry's changes, each change's messages) are, after the or-else-empty-array
default, iterable (absent, falsy, an array or a string), extraction
succeeds and returns exactly the message objects of the well-formed
branches, in their original relative order; a truthy non-iterable level
instead raises a TypeError (contained by the route's try/catch, not by the
extractor). -/
theorem extractInboundMessages_total_ordered (body : JSVal) (h : levelsIterable body = true) :
    ∃ l, extractInboundMessages body = .ok l
      ∧ l.map (fun r => r.raw_message) = flattenedMessages body := by
  simp only [levelsIterable, Bool.and_eq_true, List.all_eq_true] at h
  obtain ⟨h1, h2⟩ := h
  have hfo := iterable_forOf _ h1
  have hc : ∀ e ∈ iterElems (jsGet body "entry"),
      iterableWithDefault (jsGet e "changes") = true
      ∧ ∀ c ∈ iterElems (jsGet e "changes"), changeIterable c = true := by
    intro e he
    have h3 := h2 e he
    simp only [Bool.and_eq_true, List.all_eq_true] at h3
    exact h3
  obtain ⟨l, hl, hmap⟩ := extractFromEntries_eq (iterElems (jsGet body "entry")) hc
  exact ⟨l, by simp only [extractInboundMessages, hfo, hl], by rw [hmap]; rfl⟩

/-- C5 counterexample: on the envelope whose entry level is the number 1
(a truthy non-iterable value) extraction raises a TypeError instead of
returning a sequence, so extraction is not total on all envelope values. -/
theorem extractInboundMessages_throws_on_number_entry :
    extractInboundMessages (obj1 "entry" (.jnum 1)) = .error "is not iterable" := by rfl

/-- Witness for C5 on the demo envelope mixing a malformed and a
well-formed branch. -/
theorem extractInboundMessages_total_ordered_witness :
    ∃ l, extractInboundMessages demoMixedBody = .ok l
      ∧ l.map (fun r => r.raw_message) = flattenedMessages demoMixedBody :=
  extractInboundMessages_total_ordered demoMixedBody (by rfl)

lemma buildOp_id (salt : String) (m : ExtractedMessage) :
    (buildOp salt m).wa_message_id = m.wa_message_id := rfl

/-- C7: before any write is issued, every extracted record with a falsy
(absent) message id is dropped from the ops list, and every sibling record
with a truthy message id still has its upsert operation in the list. -/
theorem buildOps_drops_missing_id (salt : String) (msgs : List ExtractedMessage) :
    (∀ d ∈ buildOps salt msgs, truthy d.wa_message_id = true)
    ∧ (∀ m ∈ msgs, truthy m.wa_message_id = true → buildOp salt m ∈ buildOps salt msgs) := by
  constructor
  · intro d hd
    obtain ⟨m, hm, hEq⟩ := List.mem_map.mp hd
    have := (List.mem_filter.mp hm).2
    rw [← hEq, buildOp_id]
    exact this
  · intro m hm ht
    exact List.mem_map.mpr ⟨m, List.mem_filter.mpr ⟨hm, ht⟩, rfl⟩

/-- Witness for C7 on a one-message batch. -/
theorem buildOps_drops_missing_id_witness :
    buildOp "pepper" (extractOne (.jstr "CH1") demoInteractiveMsg)
      ∈ buildOps "pepper" [extractOne (.jstr "CH1") demoInteractiveMsg] :=
  (buildOps_drops_missing_id "pepper" [extractOne (.jstr "CH1") demoInteractiveMsg]).2
    (extractOne (.jstr "CH1") demoInteractiveMsg) (by simp) (by rfl)

lemma findByMessageId_applyOp_some (store : List StoredMessage) (d : StoredMessage)
    (k : JSVal) (r : StoredMessage) (h : findByMessageId store k = some r) :
    findByMessageId (applyOp store d) k = some r := by
  unfold applyOp
  cases hf : findByMessageId store d.wa_message_id with
  | some _ => exact h
  | none =>
    unfold findByMessageId at h ⊢
    rw [List.find?_append, h]
    rfl

lemma findByMessageId_applyOps_some (ops store : List StoredMessage)
    (k : JSVal) (r : StoredMessage) (h : findByMessageId store k = some r) :
    findByMessageId (applyOps store ops) k = some r := by
  induction ops generalizing store with
  | nil => exact h
  | cons d rest ih => exact ih (applyOp store d) (findByMessageId_applyOp_some store d k r h)

lemma nodupKeys_applyOp (store : List StoredMessage) (d : StoredMessage)
    (h : (store.map (fun r => r.wa_message_id)).Nodup) :
    ((applyOp store d).map (fun r => r.wa_message_id)).Nodup := by
  unfold applyOp
  cases hf : findByMessageId store d.wa_message_id with
  | some _ => exact h
  | none =>
    have hnone : ∀ r ∈ store, r.wa_message_id ≠ d.wa_message_id := by
      intro r hr
      have := List.find?_eq_none.mp hf r hr
      simpa using this
    rw [List.map_append]
    refine List.Nodup.append h (List.nodup_singleton _) ?_
    intro x hx1 hx2
    obtain ⟨r, hr, hEq⟩ := List.mem_map.mp hx1
    simp only [List.map_cons, List.map_nil, List.mem_singleton] at hx2
    exact hnone r hr (hEq.trans hx2)

lemma nodupKeys_applyOps (ops store : List StoredMessage)
    (h : (store.map (fun r => r.wa_message_id)).Nodup) :
    ((applyOps store ops).map (fun r => r.wa_message_id)).Nodup := by
  induction ops generalizing store with
  | nil => exact h
  | cons d rest ih => exact ih (applyOp store d) (nodupKeys_applyOp store d h)

lemma findByMessageId_insert (store : List StoredMessage) (d : StoredMessage)
    (h : findByMessageId store d.wa_message_id = none) :
    findByMessageId (applyOp store d) d.wa_message_id = some d := by
  unfold applyOp
  rw [h]
  unfold findByMessageId at h ⊢
  rw [List.find?_append, h]
  simp [List.find?]

/-- C1: persistence is insert-only and idempotent on the message id.  Over
any sequence of atomic upsert operations (covering sequential batches and
any interleaving of concurrent ones) applied to a store whose keys are
unique: the keys stay unique (at most one stored record per distinct id),
any record already stored for a key is still stored unchanged, with every
field intact, after the whole sequence, and a record whose key is absent
is stored with exactly the fields of its first persisted attempt
regardless of the operations delivered after it. -/
theorem persist_insert_only_idempotent (init ops : List StoredMessage)
    (hinit : (init.map (fun r => r.wa_message_id)).Nodup) :
    ((applyOps init ops).map (fun r => r.wa_message_id)).Nodup
    ∧ (∀ k r, findByMessageId init k = some r →
        findByMessageId (applyOps init ops) k = some r)
    ∧ (∀ d rest, findByMessageId init d.wa_message_id = none →
        findByMessageId (applyOps init (d :: rest)) d.wa_message_id = some d) := by
  refine ⟨nodupKeys_applyOps ops init hinit,
          fun k r h => findByMessageId_applyOps_some ops init k r h,
          fun d rest h => ?_⟩
  show findByMessageId (applyOps (applyOp init d) rest) d.wa_message_id = some d
  exact findByMessageId_applyOps_some rest (applyOp init d) d.wa_message_id d
    (findByMessageId_insert init d h)

/-- Witness for C1: a duplicate delivery of the demo document leaves the
single stored record equal to the first attempt. -/
theorem persist_insert_only_idempotent_witness :
    findByMessageId (applyOps [] [demoStored, demoStored]) demoStored.wa_message_id
      = some demoStored :=
  (persist_insert_only_idempotent [] [demoStored, demoStored] (by simp)).2.2
    demoStored [demoStored] (by rfl)
